import Mathlib

/-!
Shallow embedding of src/I2CHWC/I2CHWC.ino (riban I2C hardware controller
firmware).

Modelling conventions:
- Machine integers are modelled as Nat (unsigned) and Int (signed C int),
  with explicit truncation (`% 256`, `% 16`) wherever the source relies on
  uint8_t wraparound or masking.
- The millisecond clock (millis) is modelled as an unbounded natural
  number; the 32-bit wrap of the hardware counter (49.7 days) is outside
  the modelled range.  Within one filter step the source may call millis
  twice; both calls are modelled as the same instant `now`.
- Arithmetic right shift of a signed C int on the target compiler is
  floor division by the corresponding power of two (`asr` below).
- The controller array is a List of length MAX_CONTROLLERS; reading at an
  index is modelled by List.getD with the zero-initialised record as
  default.  The source only indexes past the array through the unchecked
  scan cursor (see the development around claim C6).
- GPIO pin levels are Bool: false = LOW, true = HIGH.  The notification
  (interrupt) pin level is carried in the machine state; LOW asserts the
  change notification, HIGH is idle.
-/

-- Compile-time configuration constants from the source header.
def POTS : Nat := 64
def SWITCHES : Nat := 40
def ENCODERS : Nat := 40
def ADC_BITS : Nat := 10
def ROT_THRESHOLD : Nat := 10
def ROT_FAST_SCALE : Int := 10
def DEBOUNCE_TIME : Nat := 50
def MAX_POTS : Nat := 64
def MAX_SWITCHES : Nat := 40
def MAX_ENCODERS : Nat := 40

-- Derived constants.
def ADC_MASK_BITS : Nat := 12 - ADC_BITS
def ADC_FILTER_SAMPLES : Nat := 32 >>> ADC_MASK_BITS
def POT_START : Nat := 0
def SWITCH_START : Nat := MAX_POTS
def ENCODER_START : Nat := MAX_POTS + MAX_SWITCHES
def MAX_CONTROLLERS : Nat := ENCODER_START + MAX_ENCODERS

-- Table of valid encoder states (anValid in the source).
def anValid : List Nat := [0,1,1,0,1,0,0,1,1,0,0,1,0,1,1,0]

-- Controller types (enum CONTROLLER_TYPE).
inductive CONTROLLER_TYPE
  | CONTROLLER_TYPE_POT
  | CONTROLLER_TYPE_SWITCH
  | CONTROLLER_TYPE_ENCODER
deriving DecidableEq, Inhabited

open CONTROLLER_TYPE

-- Controller record (struct Controller).  The field defaults mirror the
-- zero-initialised global array g_anControllers.
structure Controller where
  dirty : Bool := false
  value : Int := 0
  count : Nat := 0
  code : Nat := 0
  type : CONTROLLER_TYPE := CONTROLLER_TYPE_POT
  time : Nat := 0
deriving DecidableEq, Inhabited

-- Arithmetic right shift of a signed int, as produced by the target
-- compiler for `v >> n`: floor division by 2 ^ n.
def asr (v : Int) (n : Nat) : Int := Int.fdiv v (2 ^ n)

-- Controller::getValue.  The source method returns the processed value
-- and, for an encoder, zeroes the stored value (relative-read semantics);
-- the embedding returns the value paired with the updated record.
def Controller.getValue (c : Controller) : Int × Controller :=
  match c.type with
  | CONTROLLER_TYPE_POT => (asr c.value ADC_MASK_BITS, c)
  | CONTROLLER_TYPE_ENCODER => (c.value, { c with value := 0 })
  | CONTROLLER_TYPE_SWITCH => (c.value, c)

-- Body of the readAdc inner loop (lines 133-147) for one potentiometer
-- record and one analogue sample.  The source statement `++count = 0`
-- increments and then overwrites with 0; its net effect is `count := 0`.
def readAdcStep (c : Controller) (sample : Int) (now : Nat) : Controller :=
  if (sample - c.value).natAbs < (1 <<< ADC_MASK_BITS) then
    { c with count := 0 }
  else if (c.count + 1) % 256 < ADC_FILTER_SAMPLES then
    { c with count := (c.count + 1) % 256 }
  else
    { c with count := 0, value := sample, dirty := true, time := now }

-- Iterated readAdcStep: the same sample fed for n consecutive scan cycles.
def adcIter (c : Controller) (sample : Int) (now : Nat) : Nat → Controller
  | 0 => c
  | n + 1 => readAdcStep (adcIter c sample now n) sample now

-- Body of the readSwitch inner loop (lines 168-175) for one switch record
-- and one sampled digital level.
def readSwitchStep (c : Controller) (level : Int) (now : Nat) : Controller :=
  if level ≠ c.value ∧ c.time + DEBOUNCE_TIME < now then
    { c with value := level, dirty := true, time := now }
  else c

-- Body of the readEncoder inner loop (lines 202-231) for one encoder
-- record.  nDir is the direction variable declared at function scope in
-- the source: it is threaded through the whole pass and is NOT reset
-- after a confirmed tick, so a confirmed rotation carries over to the
-- remaining encoders of the same pass.
def encoderStep (nDir : Int) (c : Controller) (clk dat : Bool) (now : Nat) :
    Int × Controller :=
  if clk = false ∧ c.code = 0 then (nDir, c)
  else
    let code1 := (((c.code * 4) % 256) ||| (if dat then 2 else 0) |||
      (if clk then 1 else 0)) % 16
    if anValid.getD code1 0 ≠ 0 then
      let count1 := ((c.count * 16) % 256) ||| code1
      let nDir1 : Int := if count1 = 0xd4 then -1
        else if count1 = 0x17 then 1 else nDir
      if nDir1 ≠ 0 then
        (nDir1,
          { c with
              value := c.value +
                (if c.time + ROT_THRESHOLD ≤ now then nDir1
                 else nDir1 * ROT_FAST_SCALE),
              time := now, code := 0, count := count1, dirty := true })
      else (nDir1, { c with code := code1, count := count1 })
    else (nDir, { c with code := code1 })

-- readEncoder: one full encoder scan pass.  The matrix loops of the
-- source visit encoders 0 .. ENCODERS-1 in increasing order; the sampled
-- (clock, data) pair of encoder e is `inputs e`.
def readEncoder (inputs : Nat → Bool × Bool) (now : Nat)
    (regs : List Controller) : List Controller :=
  ((List.range ENCODERS).foldl
    (fun (st : Int × List Controller) e =>
      let c := st.2.getD (ENCODER_START + e) default
      let r := encoderStep st.1 c (inputs e).1 (inputs e).2 now
      (r.1, st.2.set (ENCODER_START + e) r.2))
    ((0 : Int), regs)).2

-- First index i in [lo, lo + n) with a dirty record (one for-loop of
-- getDirty).
def firstDirtyIn (regs : List Controller) (lo n : Nat) : Option Nat :=
  (List.range' lo n).find? (fun i => (regs.getD i default).dirty)

-- getDirty: scan from the cursor to the end, then from 0 up to the
-- cursor; return the 1-based index of the first dirty controller (0 if
-- none) together with the level written to the interrupt pin
-- (false = LOW = asserted when one is found, true = HIGH = idle).
def getDirty (regs : List Controller) (lastRead : Nat) : Nat × Bool :=
  match firstDirtyIn regs lastRead (MAX_CONTROLLERS - lastRead) with
  | some i => (i + 1, false)
  | none =>
    match firstDirtyIn regs 0 lastRead with
    | some i => (i + 1, false)
    | none => (0, true)

-- Machine state: the controller array, the scan cursor g_nLastRead
-- (uint8_t), the pending register g_nI2Cregister (int, holds a received
-- byte) and the interrupt pin level.
structure HwcState where
  regs : List Controller
  lastRead : Nat
  i2cRegister : Nat
  pin : Bool
deriving DecidableEq

-- sendValue(controller): guard `controller == 0 || controller-- >
-- MAX_CONTROLLERS` compares the original 1-based address and decrements
-- it for use as the array index.  On success: read the value (mutating
-- the record for an encoder), emit the two bytes {v & 0xFF, v >> 8},
-- clear the dirty flag, re-run getDirty.  Returns the new state and the
-- bytes written to the bus.
def sendValue (controller : Nat) (s : HwcState) : HwcState × List Nat :=
  if controller = 0 ∨ MAX_CONTROLLERS < controller then (s, [])
  else
    let idx := controller - 1
    let c := s.regs.getD idx default
    let vc := c.getValue
    let regs1 := s.regs.set idx { vc.2 with dirty := false }
    let d := getDirty regs1 s.lastRead
    ({ s with regs := regs1, pin := d.2 },
     [(vc.1 % 256).toNat, ((Int.fdiv vc.1 256) % 256).toNat])

-- onI2Crequest: non-zero pending register sends that value and clears
-- the selection; otherwise respond with one byte, the getDirty report.
-- The int-to-uint8_t conversion of the sendValue argument is `% 256`.
def onI2Crequest (s : HwcState) : HwcState × List Nat :=
  if s.i2cRegister ≠ 0 then
    let r := sendValue (s.i2cRegister % 256) s
    ({ r.1 with i2cRegister := 0 }, r.2)
  else
    let d := getDirty s.regs s.lastRead
    ({ s with pin := d.2 }, [d.1])

-- onI2Creceive: store the first received byte as the pending register
-- and as the scan cursor (uint8_t assignment).  The remaining bytes of
-- the message are drained with no effect on the state.
def onI2Creceive (b : Nat) (s : HwcState) : HwcState :=
  { s with i2cRegister := b, lastRead := b % 256 }

-- Registry initialisation performed by setup(): the three contiguous
-- type ranges over the zero-initialised records.
def mkController (t : CONTROLLER_TYPE) : Controller := { type := t }

def initControllers : List Controller :=
  List.replicate MAX_POTS (mkController CONTROLLER_TYPE_POT) ++
  List.replicate MAX_SWITCHES (mkController CONTROLLER_TYPE_SWITCH) ++
  List.replicate MAX_ENCODERS (mkController CONTROLLER_TYPE_ENCODER)

def initState : HwcState :=
  { regs := initControllers, lastRead := 0, i2cRegister := 0, pin := true }

-- Scan order of getDirty for a given cursor: the registry indices from
-- the cursor to the end, then from the start up to the cursor.
def scanOrder (cursor : Nat) : List Nat :=
  List.range' cursor (MAX_CONTROLLERS - cursor) ++ List.range cursor

-- Concrete fixture records and states used by witnesses and the
-- counterexample runs.
def potC : Controller := mkController CONTROLLER_TYPE_POT

def swC : Controller := mkController CONTROLLER_TYPE_SWITCH

def encC : Controller := mkController CONTROLLER_TYPE_ENCODER

-- Registry in which encoder 0 (index 104) is one valid transition away
-- from completing a clockwise cycle: its next code 7 extends history
-- 0x01 to 0x17.
def regs3 : List Controller :=
  initControllers.set 104
    { mkController CONTROLLER_TYPE_ENCODER with code := 1, count := 1 }

-- Samples for one encoder pass over regs3: encoder 0 reads clock high
-- and data high (code 7, completing the cycle), encoder 1 reads clock
-- high and data low (code 1, valid but far from either sentinel), all
-- other encoders are idle.
def inputs3 : Nat → Bool × Bool := fun e =>
  if e = 0 then (true, true) else if e = 1 then (true, false)
  else (false, false)

-- Registry with a single dirty controller at index 10.
def regsD : List Controller :=
  initControllers.set 10 { mkController CONTROLLER_TYPE_POT with dirty := true }

-- Registry with a dirty encoder holding value -3 at index 104, and a
-- state in which register 105 (that encoder) has just been selected.
def regsW : List Controller :=
  initControllers.set 104
    { mkController CONTROLLER_TYPE_ENCODER with value := -3, dirty := true }

def sW : HwcState :=
  { regs := regsW, lastRead := 105, i2cRegister := 105, pin := false }

-- Helper: the two components of Controller.getValue, case-split on the
-- controller type.
theorem getValue_fst (c : Controller) :
    (c.getValue).1 =
      (match c.type with
       | CONTROLLER_TYPE_POT => asr c.value ADC_MASK_BITS
       | CONTROLLER_TYPE_SWITCH => c.value
       | CONTROLLER_TYPE_ENCODER => c.value) := by
  cases h : c.type <;> simp [Controller.getValue, h]

theorem getValue_snd (c : Controller) :
    (c.getValue).2 =
      (if c.type = CONTROLLER_TYPE_ENCODER then { c with value := 0 } else c) := by
  cases h : c.type <;> simp [Controller.getValue, h]

/-- Claim C7: reading the value of an encoder controller resets the stored
value to 0, so an immediate second read of the same controller returns 0. -/
theorem encoder_read_resets_value (c : Controller)
    (h : c.type = CONTROLLER_TYPE_ENCODER) :
    (c.getValue).2.value = 0 ∧ ((c.getValue).2.getValue).1 = 0 := by
  simp [Controller.getValue, h]

theorem encoder_read_resets_value_witness :
    (encC.getValue).2.value = 0 ∧ ((encC.getValue).2.getValue).1 = 0 :=
  encoder_read_resets_value encC rfl

/-- Claim C10: the read transform of a potentiometer or switch controller
leaves every field of the record unchanged; the encoder transform changes
the record only by zeroing its stored value. -/
theorem getValue_frame (c : Controller) :
    ((c.type = CONTROLLER_TYPE_POT ∨ c.type = CONTROLLER_TYPE_SWITCH) →
      (c.getValue).2 = c) ∧
    (c.type = CONTROLLER_TYPE_ENCODER →
      (c.getValue).2 = { c with value := 0 }) := by
  constructor
  · rintro (h | h) <;> simp [Controller.getValue, h]
  · intro h; simp [Controller.getValue, h]

theorem getValue_frame_witness :
    (potC.getValue).2 = potC ∧ (swC.getValue).2 = swC :=
  ⟨(getValue_frame potC).1 (Or.inl rfl), (getValue_frame swC).1 (Or.inr rfl)⟩

/-- Claim C6 (falsified by the code): the scan cursor is claimed to always
lie within the registry bounds, but onI2Creceive stores the raw received
byte into the cursor without any range check: after receiving byte 200 the
cursor is 200, outside the valid index range [0, MAX_CONTROLLERS). -/
theorem receive_sets_cursor_out_of_range :
    (onI2Creceive 200 initState).lastRead = 200 ∧
    ¬ (onI2Creceive 200 initState).lastRead < MAX_CONTROLLERS := by
  decide

/-- Claim C3 (falsified by the code): the direction variable of a
readEncoder pass is not reset after a confirmed tick, so it leaks into the
remaining encoders of the same pass.  In the concrete pass below, encoder
0 (index 104) legitimately confirms a clockwise tick (its history reaches
0x17), after which encoder 1 (index 105) processes a valid sample whose
history becomes 0x01 - matching neither sentinel pattern - and its value
is nevertheless changed from 0 to 1. -/
theorem readEncoder_cross_talk :
    ((readEncoder inputs3 100 regs3).getD 104 default).count = 0x17 ∧
    ((readEncoder inputs3 100 regs3).getD 105 default).count ≠ 0x17 ∧
    ((readEncoder inputs3 100 regs3).getD 105 default).count ≠ 0xd4 ∧
    (regs3.getD 105 default).value = 0 ∧
    ((readEncoder inputs3 100 regs3).getD 105 default).value = 1 := by
  decide

/-- Claim C9: a request handled while no register is selected responds
with the single scan-report byte and leaves the registry, the scan cursor
and the register selection unchanged. -/
theorem scan_report_preserves_state (s : HwcState) (h : s.i2cRegister = 0) :
    (onI2Crequest s).2 = [(getDirty s.regs s.lastRead).1] ∧
    (onI2Crequest s).1.regs = s.regs ∧
    (onI2Crequest s).1.lastRead = s.lastRead ∧
    (onI2Crequest s).1.i2cRegister = 0 := by
  simp [onI2Crequest, h]

theorem scan_report_preserves_state_witness :
    (onI2Crequest initState).2 = [(getDirty initState.regs initState.lastRead).1] ∧
    (onI2Crequest initState).1.regs = initState.regs ∧
    (onI2Crequest initState).1.lastRead = initState.lastRead ∧
    (onI2Crequest initState).1.i2cRegister = 0 :=
  scan_report_preserves_state initState rfl

/-- Claim C8: a sampled switch level is accepted - value updated, dirty
flag set, change time stamped with the current clock - exactly when the
level differs from the stored value and the time elapsed since the last
accepted change exceeds the debounce window; otherwise the record is left
unchanged. -/
theorem readSwitch_debounce (c : Controller) (level : Int) (now : Nat)
    (ht : c.type = CONTROLLER_TYPE_SWITCH) :
    ((level ≠ c.value ∧ DEBOUNCE_TIME < now - c.time) →
      readSwitchStep c level now =
        { c with value := level, dirty := true, time := now }) ∧
    (¬ (level ≠ c.value ∧ DEBOUNCE_TIME < now - c.time) →
      readSwitchStep c level now = c) := by
  have hiff : (c.time + DEBOUNCE_TIME < now) ↔ (DEBOUNCE_TIME < now - c.time) := by
    omega
  constructor
  · rintro ⟨hv, hd⟩
    rw [readSwitchStep, if_pos ⟨hv, hiff.mpr hd⟩]
  · intro h
    rw [readSwitchStep, if_neg]
    intro hc
    exact h ⟨hc.1, hiff.mp hc.2⟩

theorem readSwitch_debounce_witness :
    readSwitchStep swC 1 100 = { swC with value := 1, dirty := true, time := 100 } ∧
    readSwitchStep swC 1 30 = swC :=
  ⟨(readSwitch_debounce swC 1 100 rfl).1 (by decide),
   (readSwitch_debounce swC 1 30 rfl).2 (by decide)⟩

/-- Claim C5: receiving a register address greater than the registry size
and then requesting produces no response bytes (in particular no two-byte
value), changes no controller record, leaves the notification pin
untouched and returns the handler to idle (selected register 0); the
sendValue guard rejects the address before any registry access. -/
theorem out_of_range_register_noop (s : HwcState) (addr : Nat)
    (h1 : MAX_CONTROLLERS < addr) (h2 : addr < 256) :
    (onI2Crequest (onI2Creceive addr s)).2 = [] ∧
    (onI2Crequest (onI2Creceive addr s)).1.regs = s.regs ∧
    (onI2Crequest (onI2Creceive addr s)).1.i2cRegister = 0 ∧
    (onI2Crequest (onI2Creceive addr s)).1.pin = s.pin := by
  have hmod : addr % 256 = addr := Nat.mod_eq_of_lt h2
  have hne : addr ≠ 0 := by
    intro h
    rw [h] at h1
    exact absurd h1 (by decide)
  rw [onI2Creceive, onI2Crequest]
  simp only []
  rw [if_pos (by simpa using hne)]
  rw [sendValue]
  simp only [hmod]
  rw [if_pos (Or.inr h1)]
  exact ⟨rfl, rfl, trivial, rfl⟩

theorem out_of_range_register_noop_witness :
    (onI2Crequest (onI2Creceive 200 initState)).2 = [] ∧
    (onI2Crequest (onI2Creceive 200 initState)).1.regs = initState.regs ∧
    (onI2Crequest (onI2Creceive 200 initState)).1.i2cRegister = 0 ∧
    (onI2Crequest (onI2Creceive 200 initState)).1.pin = initState.pin :=
  out_of_range_register_noop initState 200 (by decide) (by decide)

-- Helpers for the ADC filter: the three branches of readAdcStep.
theorem readAdcStep_noise {c : Controller} {sample : Int} {now : Nat}
    (h : (sample - c.value).natAbs < 1 <<< ADC_MASK_BITS) :
    readAdcStep c sample now = { c with count := 0 } := by
  rw [readAdcStep, if_pos h]

theorem readAdcStep_counting {c : Controller} {sample : Int} {now : Nat}
    (h : ¬ (sample - c.value).natAbs < 1 <<< ADC_MASK_BITS)
    (hc : c.count + 1 < ADC_FILTER_SAMPLES) :
    readAdcStep c sample now = { c with count := c.count + 1 } := by
  have h256 : (c.count + 1) % 256 = c.count + 1 := by
    have h8 : ADC_FILTER_SAMPLES ≤ 256 := by decide
    exact Nat.mod_eq_of_lt (by omega)
  rw [readAdcStep, if_neg h, if_pos (by rw [h256]; exact hc), h256]

theorem readAdcStep_accept {c : Controller} {sample : Int} {now : Nat}
    (h : ¬ (sample - c.value).natAbs < 1 <<< ADC_MASK_BITS)
    (hc : ¬ (c.count + 1) % 256 < ADC_FILTER_SAMPLES) :
    readAdcStep c sample now =
      { c with count := 0, value := sample, dirty := true, time := now } := by
  rw [readAdcStep, if_neg h, if_neg hc]

-- Helper: a sample within the noise tolerance never changes value or
-- dirty, and zeroes the run-length counter, over any number of cycles.
theorem adcIter_noise {c : Controller} {sample : Int} {now : Nat}
    (h : (sample - c.value).natAbs < 1 <<< ADC_MASK_BITS) :
    ∀ n, (adcIter c sample now n).value = c.value ∧
      (adcIter c sample now n).dirty = c.dirty ∧
      (adcIter c sample now n).type = c.type ∧
      (1 ≤ n → (adcIter c sample now n).count = 0) := by
  intro n
  induction n with
  | zero => exact ⟨rfl, rfl, rfl, fun h1 => absurd h1 (by omega)⟩
  | succ n ih =>
    have hstep : readAdcStep (adcIter c sample now n) sample now =
        { adcIter c sample now n with count := 0 } :=
      readAdcStep_noise (by rw [ih.1]; exact h)
    have heq : adcIter c sample now (n + 1) =
        { adcIter c sample now n with count := 0 } := hstep
    rw [heq]
    exact ⟨ih.1, ih.2.1, ih.2.2.1, fun _ => rfl⟩

-- Helper: with a cleared counter and a sample beyond the tolerance, the
-- first cycles below the threshold only advance the counter.
theorem adcIter_counting {c : Controller} {sample : Int} {now : Nat}
    (h : ¬ (sample - c.value).natAbs < 1 <<< ADC_MASK_BITS)
    (hcnt : c.count = 0) :
    ∀ n, n < ADC_FILTER_SAMPLES →
      adcIter c sample now n = { c with count := n } := by
  intro n
  induction n with
  | zero =>
    intro _
    show c = { c with count := 0 }
    rw [← hcnt]
  | succ n ih =>
    intro hn
    have hrec := ih (by omega)
    show readAdcStep (adcIter c sample now n) sample now = { c with count := n + 1 }
    rw [hrec]
    exact @readAdcStep_counting { c with count := n } sample now h hn

-- Helper: the threshold-th consecutive out-of-tolerance cycle accepts
-- the sample.
theorem adcIter_accepts {c : Controller} {sample : Int} {now : Nat}
    (h : ¬ (sample - c.value).natAbs < 1 <<< ADC_MASK_BITS)
    (hcnt : c.count = 0) :
    adcIter c sample now ADC_FILTER_SAMPLES =
      { c with count := 0, value := sample, dirty := true, time := now } := by
  have h7 := @adcIter_counting c sample now h hcnt 7 (by decide)
  have hc8 : ¬ (({ c with count := 7 } : Controller).count + 1) % 256 <
      ADC_FILTER_SAMPLES := by
    show ¬ (7 + 1) % 256 < ADC_FILTER_SAMPLES
    decide
  show readAdcStep (adcIter c sample now 7) sample now = _
  rw [h7]
  exact @readAdcStep_accept { c with count := 7 } sample now h hc8

-- Helper: iteration splits into consecutive runs.
theorem adcIter_add (c : Controller) (sample : Int) (now : Nat) (m n : Nat) :
    adcIter c sample now (m + n) =
      adcIter (adcIter c sample now m) sample now n := by
  induction n with
  | zero => rfl
  | succ n ih =>
    show readAdcStep (adcIter c sample now (m + n)) sample now = _
    rw [ih]
    rfl

/-- Claim C4: for a potentiometer record, a sample differing from the
stored raw value by less than one mask unit (2 ^ ADC_MASK_BITS) never sets
the dirty flag no matter how often it repeats and zeroes the run-length
counter, while a difference of at least one mask unit sustained for
ADC_FILTER_SAMPLES consecutive cycles leaves value and dirty untouched for
the first cycles below the threshold, then sets dirty exactly once, stores
the new raw value, keeps both stable under further identical samples, and
the value reported by the read transform is the new raw sample
arithmetically right-shifted by ADC_MASK_BITS. -/
theorem readAdc_hysteresis (c : Controller) (sample : Int) (now : Nat) (n : Nat)
    (ht : c.type = CONTROLLER_TYPE_POT) :
    ((sample - c.value).natAbs < 2 ^ ADC_MASK_BITS →
      (adcIter c sample now n).dirty = c.dirty ∧
      (adcIter c sample now n).value = c.value ∧
      (1 ≤ n → (adcIter c sample now n).count = 0)) ∧
    (2 ^ ADC_MASK_BITS ≤ (sample - c.value).natAbs → c.count = 0 →
      ((n < ADC_FILTER_SAMPLES →
        (adcIter c sample now n).dirty = c.dirty ∧
        (adcIter c sample now n).value = c.value) ∧
       (adcIter c sample now ADC_FILTER_SAMPLES).dirty = true ∧
       (adcIter c sample now ADC_FILTER_SAMPLES).value = sample ∧
       ((adcIter c sample now ADC_FILTER_SAMPLES).getValue).1 =
         asr sample ADC_MASK_BITS ∧
       (adcIter c sample now (ADC_FILTER_SAMPLES + n)).dirty = true ∧
       (adcIter c sample now (ADC_FILTER_SAMPLES + n)).value = sample)) := by
  have hshift : (1 <<< ADC_MASK_BITS) = 2 ^ ADC_MASK_BITS := by decide
  constructor
  · intro h
    have h2 := @adcIter_noise c sample now (by rw [hshift]; exact h) n
    exact ⟨h2.2.1, h2.1, h2.2.2.2⟩
  · intro h hcnt
    have hbig : ¬ (sample - c.value).natAbs < 1 <<< ADC_MASK_BITS := by
      rw [hshift]; omega
    have hacc := @adcIter_accepts c sample now hbig hcnt
    have hz : (sample - sample).natAbs < 1 <<< ADC_MASK_BITS := by
      rw [sub_self]
      decide
    refine ⟨fun hn => ?_, ?_, ?_, ?_, ?_, ?_⟩
    · rw [@adcIter_counting c sample now hbig hcnt n hn]
      exact ⟨rfl, rfl⟩
    · rw [hacc]
    · rw [hacc]
    · rw [hacc, getValue_fst]
      show (match c.type with
        | CONTROLLER_TYPE_POT => asr sample ADC_MASK_BITS
        | CONTROLLER_TYPE_SWITCH => (sample : Int)
        | CONTROLLER_TYPE_ENCODER => (sample : Int)) = asr sample ADC_MASK_BITS
      rw [ht]
    · rw [adcIter_add, hacc]
      exact (@adcIter_noise _ sample now hz n).2.1
    · rw [adcIter_add, hacc]
      exact (@adcIter_noise _ sample now hz n).1

theorem readAdc_hysteresis_witness :
    (adcIter potC 100 5 ADC_FILTER_SAMPLES).dirty = true ∧
    (adcIter potC 100 5 ADC_FILTER_SAMPLES).value = 100 ∧
    ((adcIter potC 100 5 ADC_FILTER_SAMPLES).getValue).1 = asr 100 ADC_MASK_BITS ∧
    (adcIter potC 100 5 3).dirty = false := by
  have h := (readAdc_hysteresis potC 100 5 3 rfl).2 (by decide) rfl
  exact ⟨h.2.1, h.2.2.1, h.2.2.2.1, ((h.1 (by decide)).1).trans rfl⟩

-- Helpers for the rotating scan: the scan order covers exactly the
-- registry indices, each at most once, and getDirty is the first match
-- along it.
theorem scanOrder_mem (cursor : Nat) (hc : cursor ≤ MAX_CONTROLLERS) :
    ∀ i, i ∈ scanOrder cursor ↔ i < MAX_CONTROLLERS := by
  intro i
  rw [scanOrder, List.mem_append, List.mem_range'_1, List.mem_range]
  omega

theorem scanOrder_nodup (cursor : Nat) : (scanOrder cursor).Nodup := by
  rw [scanOrder]
  refine List.Nodup.append (List.nodup_range' _ _) (List.nodup_range _) ?_
  intro a ha hb
  rw [List.mem_range'_1] at ha
  rw [List.mem_range] at hb
  omega

theorem getDirty_eq_find (regs : List Controller) (cursor : Nat) :
    getDirty regs cursor =
      match (scanOrder cursor).find? (fun i => (regs.getD i default).dirty) with
      | some i => (i + 1, false)
      | none => (0, true) := by
  simp only [getDirty, firstDirtyIn, scanOrder, List.range_eq_range',
    List.find?_append]
  cases h1 : (List.range' cursor (MAX_CONTROLLERS - cursor)).find?
      (fun i => (regs.getD i default).dirty) with
  | some i => rfl
  | none =>
    cases h2 : (List.range' 0 cursor).find? (fun i => (regs.getD i default).dirty) with
    | some i => rfl
    | none => rfl

/-- Claim C2: for any registry contents and any stored cursor within the
registry bound, the change scan visits the indices starting at the cursor,
wrapping at the end back to index 0, each registry index at most once (and
all of them); it reports the 1-based index of the first dirty controller
along that order (0 when none is dirty), and it drives the notification
pin LOW (asserted) exactly when some controller is dirty and HIGH (idle)
when none is. -/
theorem getDirty_rotating_scan (regs : List Controller) (cursor : Nat)
    (hc : cursor ≤ MAX_CONTROLLERS) :
    (scanOrder cursor).Nodup ∧
    (∀ i, i ∈ scanOrder cursor ↔ i < MAX_CONTROLLERS) ∧
    ((getDirty regs cursor).1 =
      match (scanOrder cursor).find? (fun i => (regs.getD i default).dirty) with
      | some i => i + 1
      | none => 0) ∧
    ((getDirty regs cursor).2 = false ↔
      ∃ i, i < MAX_CONTROLLERS ∧ (regs.getD i default).dirty = true) ∧
    ((getDirty regs cursor).2 = true ↔
      ∀ i, i < MAX_CONTROLLERS → (regs.getD i default).dirty = false) := by
  have hmem := scanOrder_mem cursor hc
  have hkey := getDirty_eq_find regs cursor
  refine ⟨scanOrder_nodup cursor, hmem, ?_, ?_, ?_⟩
  · rw [hkey]
    cases hf : (scanOrder cursor).find? (fun i => (regs.getD i default).dirty) <;> rfl
  · rw [hkey]
    cases hf : (scanOrder cursor).find? (fun i => (regs.getD i default).dirty) with
    | some i =>
      refine iff_of_true rfl ?_
      have hp := List.find?_some hf
      have hm := List.mem_of_find?_eq_some hf
      exact ⟨i, (hmem i).mp hm, by simpa using hp⟩
    | none =>
      refine iff_of_false (by simp) ?_
      rintro ⟨i, hi, hd⟩
      have hnone := List.find?_eq_none.mp hf i ((hmem i).mpr hi)
      exact hnone hd
  · rw [hkey]
    cases hf : (scanOrder cursor).find? (fun i => (regs.getD i default).dirty) with
    | some i =>
      refine iff_of_false (by simp) ?_
      intro hall
      have hp := List.find?_some hf
      have hm := List.mem_of_find?_eq_some hf
      have hfalse := hall i ((hmem i).mp hm)
      have hp2 : (regs.getD i default).dirty = true := by simpa using hp
      rw [hfalse] at hp2
      exact Bool.noConfusion hp2
    | none =>
      refine iff_of_true rfl ?_
      intro i hi
      have hnone := List.find?_eq_none.mp hf i ((hmem i).mpr hi)
      simpa using hnone

theorem getDirty_rotating_scan_witness :
    (getDirty regsD 3).1 =
      (match (scanOrder 3).find? (fun i => ((regsD.getD i default).dirty)) with
       | some i => i + 1
       | none => 0) ∧
    (getDirty regsD 3).2 = false :=
  ⟨(getDirty_rotating_scan regsD 3 (by decide)).2.2.1,
   ((getDirty_rotating_scan regsD 3 (by decide)).2.2.2.1).mpr
     ⟨10, by decide, by decide⟩⟩

-- Helpers for the two-byte response: the bytes {v & 0xFF, v >> 8} are the
-- little-endian encoding of v modulo 2 ^ 16, each below 256.
theorem le16_bytes (v : Int) :
    ((v % 256).toNat : Int) + 256 * (((Int.fdiv v 256) % 256).toNat : Int) =
      v % 65536 := by
  have h1 : Int.fdiv v 256 = v / 256 := Int.fdiv_eq_ediv v (by norm_num)
  have h2 : (0 : Int) ≤ v % 256 := Int.emod_nonneg v (by norm_num)
  have h3 : (0 : Int) ≤ (v / 256) % 256 := Int.emod_nonneg _ (by norm_num)
  rw [h1, Int.toNat_of_nonneg h2, Int.toNat_of_nonneg h3]
  omega

theorem emod256_toNat_lt (v : Int) : (v % 256).toNat < 256 := by
  have h2 := Int.emod_nonneg v (show (256 : Int) ≠ 0 by norm_num)
  have h4 := Int.emod_lt_of_pos v (show (0 : Int) < 256 by norm_num)
  omega

/-- Claim C1: when a valid 1-based register address r is selected, a
request responds with exactly two bytes, each below 256, forming the
little-endian encoding modulo 2 ^ 16 of the per-kind read transform of
controller r - 1 (potentiometer: raw value arithmetically right-shifted by
ADC_MASK_BITS; switch: stored value; encoder: accumulated delta); it then
clears the dirty flag of that controller (zeroing the value of an
encoder), changes
no other record, clears the selected register to 0, keeps the cursor, and
recomputes the notification pin by re-running the change scan on the
updated registry. -/
theorem onI2Crequest_sends_selected_value (s : HwcState) (r : Nat)
    (hreg : s.i2cRegister = r) (h1 : 1 ≤ r) (h2 : r ≤ MAX_CONTROLLERS)
    (hlen : s.regs.length = MAX_CONTROLLERS) :
    (onI2Crequest s).2.length = 2 ∧
    ((onI2Crequest s).2.getD 0 0) < 256 ∧
    ((onI2Crequest s).2.getD 1 0) < 256 ∧
    (((onI2Crequest s).2.getD 0 0 : Int) +
        256 * ((onI2Crequest s).2.getD 1 0 : Int) =
      (match (s.regs.getD (r - 1) default).type with
       | CONTROLLER_TYPE_POT =>
           asr (s.regs.getD (r - 1) default).value ADC_MASK_BITS
       | CONTROLLER_TYPE_SWITCH => (s.regs.getD (r - 1) default).value
       | CONTROLLER_TYPE_ENCODER =>
           (s.regs.getD (r - 1) default).value) % 65536) ∧
    ((onI2Crequest s).1.regs.getD (r - 1) default).dirty = false ∧
    ((onI2Crequest s).1.regs.getD (r - 1) default).value =
      (if (s.regs.getD (r - 1) default).type = CONTROLLER_TYPE_ENCODER then 0
       else (s.regs.getD (r - 1) default).value) ∧
    (∀ j, j ≠ r - 1 →
      (onI2Crequest s).1.regs.getD j default = s.regs.getD j default) ∧
    (onI2Crequest s).1.i2cRegister = 0 ∧
    (onI2Crequest s).1.lastRead = s.lastRead ∧
    (onI2Crequest s).1.pin =
      (getDirty (onI2Crequest s).1.regs s.lastRead).2 := by
  have hmax : MAX_CONTROLLERS = 144 := rfl
  have hr0 : s.i2cRegister ≠ 0 := by omega
  have hmod : r % 256 = r := Nat.mod_eq_of_lt (by omega)
  have hguard : ¬ (r = 0 ∨ MAX_CONTROLLERS < r) := by
    rintro (h | h) <;> omega
  have hkey : onI2Crequest s =
      ({ regs := s.regs.set (r - 1)
            { ((s.regs.getD (r - 1) default).getValue).2 with dirty := false },
         lastRead := s.lastRead, i2cRegister := 0,
         pin := (getDirty (s.regs.set (r - 1)
            { ((s.regs.getD (r - 1) default).getValue).2 with dirty := false })
            s.lastRead).2 },
       [((((s.regs.getD (r - 1) default).getValue).1) % 256).toNat,
        ((Int.fdiv (((s.regs.getD (r - 1) default).getValue).1) 256) % 256).toNat]) := by
    rw [onI2Crequest, if_pos hr0, hreg, hmod, sendValue, if_neg hguard]
  have hregs : (onI2Crequest s).1.regs = s.regs.set (r - 1)
      { ((s.regs.getD (r - 1) default).getValue).2 with dirty := false } := by
    rw [hkey]
  have hbytes : (onI2Crequest s).2 =
      [((((s.regs.getD (r - 1) default).getValue).1) % 256).toNat,
       ((Int.fdiv (((s.regs.getD (r - 1) default).getValue).1) 256) % 256).toNat] := by
    rw [hkey]
  have hidx : r - 1 < s.regs.length := by omega
  have hget : (s.regs.set (r - 1)
        { ((s.regs.getD (r - 1) default).getValue).2 with dirty := false }).getD
        (r - 1) default =
      { ((s.regs.getD (r - 1) default).getValue).2 with dirty := false } := by
    rw [List.getD_eq_getElem?_getD, List.getElem?_set_self hidx, Option.getD_some]
  refine ⟨?_, ?_, ?_, ?_, ?_, ?_, ?_, ?_, ?_, ?_⟩
  · rw [hbytes]
    rfl
  · rw [hbytes, List.getD_cons_zero]
    exact emod256_toNat_lt _
  · rw [hbytes, List.getD_cons_succ, List.getD_cons_zero]
    exact emod256_toNat_lt _
  · rw [hbytes, List.getD_cons_succ, List.getD_cons_zero, List.getD_cons_zero,
      ← getValue_fst]
    exact le16_bytes _
  · rw [hregs, hget]
  · rw [hregs, hget]
    show (((s.regs.getD (r - 1) default).getValue).2).value = _
    rw [getValue_snd]
    by_cases he : (s.regs.getD (r - 1) default).type = CONTROLLER_TYPE_ENCODER
    · rw [if_pos he, if_pos he]
    · rw [if_neg he, if_neg he]
  · intro j hj
    rw [hregs, List.getD_eq_getElem?_getD, List.getElem?_set_ne (Ne.symm hj),
      ← List.getD_eq_getElem?_getD]
  · rw [hkey]
  · rw [hkey]
  · rw [hkey]

set_option maxRecDepth 4000 in
theorem onI2Crequest_sends_selected_value_witness :
    (onI2Crequest sW).2.length = 2 ∧
    ((onI2Crequest sW).1.regs.getD 104 default).dirty = false ∧
    (onI2Crequest sW).1.i2cRegister = 0 ∧
    (onI2Crequest sW).1.lastRead = sW.lastRead := by
  have h := onI2Crequest_sends_selected_value sW 105 rfl (by decide) (by decide)
    (by decide)
  exact ⟨h.1, h.2.2.2.2.1, h.2.2.2.2.2.2.2.1, h.2.2.2.2.2.2.2.2.1⟩
